import Mathlib

/-!
Verification of the karaoke video library metadata updater.

The program (src/update-song-data.py, plus one helper of the sibling script
src/download-song-data.py) is shallowly embedded: each Python function is
translated into a Lean definition of the same name.  External collaborators
(the spotdl subprocess for metadata lookup and cover download, ffprobe for
durations, the date command) are modeled by a Providers structure of response
functions, and every embedded function additionally returns the list of
external provider calls it performs, so that zero-network-call properties can
be stated.  Python exceptions are modeled with Except, the two JSON documents
on disk with the Persisted structure, and Python dicts keyed by base filename
with insertion-ordered association lists (mapInsert, mapFind).
-/

namespace UpdateSongData

/-- Python truthiness of an optional string value: None (absent key) and the
empty string are falsy, every other string is truthy. -/
def pyTruthy : Option String → Bool
  | none => false
  | some s => s != ""

/-- A Python value held by the cover_filename field: either a str or a
pathlib.Path carrying the same character content.  The distinction matters:
json.dump serializes a str but raises TypeError on a Path, a Path is always
truthy, and a Path compares unequal to every str. -/
inductive CoverValue where
  | str (s : String)
  | path (s : String)
deriving Repr, DecidableEq

/-- The Python expression cover_filename != some_string: a Path is never equal
to a str whatever its content, a str compares by content. -/
def CoverValue.neqStr : CoverValue → String → Bool
  | .path _, _ => true
  | .str s, t => s != t

-- Configuration constants of update-song-data.py.
def VIDEOS_DIR : String := "videos"

def COVERS_DIR : String := "covers"

def OUTPUT_JSON : String := "videos.json"

def EXTRA_METADATA_JSON : String := "extra_metadata.json"

def VIDEO_EXTENSIONS : List String := [".mp4", ".avi", ".mkv", ".mov", ".webm", ".flv", ".m4v"]

/-- One entry of videos.json.  Optional fields model keys that may be absent
from the Python dict.  The genre value is stored exactly as the raw genres
list received from the provider, as the source does. -/
structure VideoEntry where
  filename : String
  artist : Option String := none
  title : Option String := none
  genre : Option (List String) := none
  video_filename : Option String := none
  cover_filename : Option CoverValue := none
  duration_seconds : Option ℚ := none
  processed_at : Option String := none
deriving Repr, DecidableEq

/-- Whether json.dump can serialize the entry: every field is a str, float or
list except cover_filename, which may hold the pathlib.Path stored by
process_video_file; a Path is not JSON-serializable. -/
def VideoEntry.jsonSerializable (e : VideoEntry) : Bool :=
  match e.cover_filename with
  | some (.path _) => false
  | _ => true

/-- A raw spotdl metadata record.  The artist, name and genres keys are the
ones the script reads; extras stands in for all remaining keys and is kept
only so that dict truthiness can be decided.  genres is none when the key is
absent from the record (reading it then raises KeyError in the source). -/
structure MetadataRecord where
  artist : Option String := none
  name : Option String := none
  genres : Option (List String) := none
  extras : List String := []
deriving Repr, DecidableEq

/-- Python truthiness of a raw metadata record: a dict is truthy iff it has at
least one key. -/
def recordTruthy (m : MetadataRecord) : Bool :=
  m.artist.isSome || m.name.isSome || m.genres.isSome || !m.extras.isEmpty

/-- Outcome of the spotdl save subprocess for one metadata query.  fail covers
a nonzero exit code, a missing save file and a timeout: each of these makes
the source return None.  ok carries the parsed JSON list of records. -/
inductive SpotdlResult where
  | fail
  | ok (records : List MetadataRecord)

/-- One external provider invocation, recorded so that the zero-network-call
properties of the specification can be stated. -/
inductive ProviderCall where
  | metaLookup (query : String)
  | coverCmd (query : String)
  | probe (path : String)
deriving Repr, DecidableEq

/-- The external collaborators.  cover_cmd models the spotdl cover subprocess,
whose error outcome is a raised exception, since download_cover runs it with
check set and without a surrounding try block.  ffprobe returns none for every
failure mode of the duration probe (nonzero exit, empty output, exception),
because the source collapses them all into None. -/
structure Providers where
  spotdl_meta : String → SpotdlResult
  cover_cmd : String → Except String Unit
  ffprobe : String → Option ℚ
  now : String

/-- The two JSON documents on disk.  videos_doc is some list when videos.json
holds a well-formed catalog and none when an aborted json.dump left it
truncated: the file is opened for writing (truncating it) and written
incrementally, so a TypeError midway leaves a partial, unparseable document.
extra_metadata.json never holds non-serializable values in this program and
stays well-formed. -/
structure Disk where
  videos_doc : Option (List VideoEntry)
  extra_doc : List (String × MetadataRecord)
deriving Repr, DecidableEq

/-- Lookup in an insertion-ordered association list (a Python dict keyed by
base filename). -/
def mapFind {α : Type} (m : List (String × α)) (k : String) : Option α :=
  (m.find? (fun p => p.1 == k)).map Prod.snd

def mapKeys {α : Type} (m : List (String × α)) : List String := m.map Prod.fst

def mapValues {α : Type} (m : List (String × α)) : List α := m.map Prod.snd

/-- Dict assignment: replace the value in place when the key exists, append at
the end otherwise, as a Python dict does. -/
def mapInsert {α : Type} (m : List (String × α)) (k : String) (v : α) : List (String × α) :=
  if m.any (fun p => p.1 == k) then m.map (fun p => if p.1 == k then (k, v) else p)
  else m ++ [(k, v)]

/-- Index of the last dot in a character list, if any. -/
def lastDotIdx : List Char → Option Nat
  | [] => none
  | c :: cs =>
    match lastDotIdx cs with
    | some i => some (i + 1)
    | none => if c = '.' then some 0 else none

/-- Path.stem of a file name: the name without its final suffix.  Following
the pathlib rule, the suffix is nonempty exactly when the last dot is neither
the first nor the last character of the name. -/
def pathStem (name : String) : String :=
  let cs := name.data
  match lastDotIdx cs with
  | some i => if 0 < i ∧ i < cs.length - 1 then String.mk (cs.take i) else name
  | none => name

/-- Rounding to two decimal places, modeling the two-digit round call of the
source.  CPython rounds binary floats with banker tie-breaking; no claim
depends on the rounded value, only on whether the field is written at all. -/
def round2 (d : ℚ) : ℚ := ((round (d * 100) : ℤ) : ℚ) / 100

/-- save_json_files: write the current videos map (as the list of its values)
and then the extra metadata dict to the two JSON files.  json.dump raises
TypeError when some entry holds a non-serializable value (the pathlib.Path a
processed new file stores in cover_filename); videos.json was already opened
for writing and partially written, so it is left truncated, the second file is
never reached, and the exception propagates to the caller.  When every entry
is serializable both documents are written whole. -/
def save_json_files (videos_map : List (String × VideoEntry))
    (extra_metadata_data : List (String × MetadataRecord)) (disk : Disk) :
    Except String Unit × Disk :=
  let videos_data := mapValues videos_map
  if videos_data.all VideoEntry.jsonSerializable then
    (.ok (), { videos_doc := some videos_data, extra_doc := extra_metadata_data })
  else
    (.error "TypeError: PosixPath is not JSON serializable",
      { videos_doc := none, extra_doc := disk.extra_doc })

/-- get_existing_cover of update-song-data.py: it builds the path object
covers slash base_name dot jpg and returns it unconditionally.  It performs no
filesystem access at all, so its result is always a truthy value no matter
which cover files actually exist on disk. -/
def get_existing_cover (base_name : String) : Option CoverValue :=
  some (.path (COVERS_DIR ++ "/" ++ base_name ++ ".jpg"))

/-- download_cover: return immediately when get_existing_cover is truthy;
otherwise run the spotdl cover subprocess (with check set, so a failure or
timeout raises) and re-query get_existing_cover. -/
def download_cover (w : Providers) (base_name search_query : String) :
    Except String (Option CoverValue) × List ProviderCall :=
  match get_existing_cover base_name with
  | some existing_cover => (.ok (some existing_cover), [])
  | none =>
    match w.cover_cmd search_query with
    | .error e => (.error e, [ProviderCall.coverCmd search_query])
    | .ok _ => (.ok (get_existing_cover base_name), [ProviderCall.coverCmd search_query])

/-- The body of the try block of get_spotdl_metadata: a nonzero exit code, a
missing save file or a timeout yield None; a parsed record list of length
other than one raises ValueError; a single record is returned when the dict is
truthy and None otherwise. -/
def get_spotdl_metadata_body : SpotdlResult → Except String (Option MetadataRecord)
  | .fail => .ok none
  | .ok records =>
    match records with
    | [metadata] => if recordTruthy metadata then .ok (some metadata) else .ok none
    | _ => .error "unexpected length of metadata"

/-- The value get_spotdl_metadata returns: the blanket exception handler of
the source catches every exception raised in the try block, including the
ValueError for a record list of unexpected length, logs a warning and returns
None. -/
def get_spotdl_metadata_result (w : Providers) (search_query : String) : Option MetadataRecord :=
  match get_spotdl_metadata_body (w.spotdl_meta search_query) with
  | .ok v => v
  | .error _ => none

/-- get_spotdl_metadata: one spotdl metadata invocation, returning the record
(or None) together with the provider call it makes. -/
def get_spotdl_metadata (w : Providers) (search_query : String) :
    Option MetadataRecord × List ProviderCall :=
  (get_spotdl_metadata_result w search_query, [ProviderCall.metaLookup search_query])

/-- get_video_duration: one ffprobe invocation; the source collapses every
failure mode into None. -/
def get_video_duration (w : Providers) (video_path : String) :
    Option ℚ × List ProviderCall :=
  (w.ffprobe video_path, [ProviderCall.probe video_path])

/-- extract_song_info: read artist and name with dict get (absent keys give
None) and read genres with subscripting, which raises KeyError when the key is
absent. -/
def extract_song_info (metadata : MetadataRecord) :
    Except String (Option String × Option String × List String) :=
  match metadata.genres with
  | none => .error "KeyError: genres"
  | some genres => .ok (metadata.artist, metadata.name, genres)

/-- needs_update: offline mode never updates an existing entry; online, the
reasons list collects missing metadata (artist or title falsy) and a missing
cover, the latter decided by the truthiness of get_existing_cover. -/
def needs_update (video_entry : VideoEntry) (no_internet : Bool) : Bool × List String :=
  if no_internet then (false, [])
  else
    let reasons : List String := []
    let reasons := if !pyTruthy video_entry.artist || !pyTruthy video_entry.title
      then reasons ++ ["missing metadata"] else reasons
    let reasons := if (get_existing_cover video_entry.filename).isNone
      then reasons ++ ["missing cover"] else reasons
    (decide (reasons.length > 0), reasons)

/-- update_video_entry: fetch metadata only when both artist and title are
falsy, apply the truthy extracted fields and the timestamp, then download the
cover only when get_existing_cover is falsy.  A KeyError from
extract_song_info and an exception from download_cover propagate to the
caller. -/
def update_video_entry (w : Providers) (video_entry : VideoEntry) :
    Except String (VideoEntry × Option MetadataRecord) × List ProviderCall :=
  let base_name := video_entry.filename
  let metaStep : Except String (VideoEntry × Option MetadataRecord) × List ProviderCall :=
    if !pyTruthy video_entry.artist && !pyTruthy video_entry.title then
      match get_spotdl_metadata w base_name with
      | (some extra_metadata, cs) =>
        (match extract_song_info extra_metadata with
          | .error e => (.error e, cs)
          | .ok (artist, title, genre) =>
            let ve := video_entry
            let ve := if pyTruthy artist then { ve with artist := artist } else ve
            let ve := if pyTruthy title then { ve with title := title } else ve
            let ve := if !genre.isEmpty then { ve with genre := some genre } else ve
            let ve := { ve with processed_at := some w.now }
            (.ok (ve, some extra_metadata), cs))
      | (none, cs) => (.ok (video_entry, none), cs)
    else (.ok (video_entry, none), [])
  match metaStep with
  | (.error e, cs) => (.error e, cs)
  | (.ok (ve, extra), cs1) =>
    if (get_existing_cover base_name).isNone then
      match download_cover w base_name base_name with
      | (.error e, cs2) => (.error e, cs1 ++ cs2)
      | (.ok cover_filename, cs2) =>
        let ve2 := match cover_filename with
          | some c => if c.neqStr (base_name ++ ".jpg") then { ve with cover_filename := some c }
              else ve
          | none => ve
        (.ok (ve2, extra), cs1 ++ cs2)
    else (.ok (ve, extra), cs1)

/-- process_video_file: full online processing of a new file.  No metadata
means the file is skipped (ok none); a KeyError from extract_song_info or an
exception from download_cover propagates; otherwise the entry is built field
by field, each optional field written only when its value is truthy. -/
def process_video_file (w : Providers) (video_name : String) :
    Except String (Option (VideoEntry × MetadataRecord × String)) × List ProviderCall :=
  let base_name := pathStem video_name
  match get_spotdl_metadata w base_name with
  | (none, cs) => (.ok none, cs)
  | (some extra_metadata, cs1) =>
    match extract_song_info extra_metadata with
    | .error e => (.error e, cs1)
    | .ok (artist, title, genre) =>
      match download_cover w base_name base_name with
      | (.error e, cs2) => (.error e, cs1 ++ cs2)
      | (.ok cover_filename, cs2) =>
        let pr := get_video_duration w (VIDEOS_DIR ++ "/" ++ video_name)
        let duration := pr.1
        let ve : VideoEntry := { filename := base_name }
        let ve := if pyTruthy artist then { ve with artist := artist } else ve
        let ve := if pyTruthy title then { ve with title := title } else ve
        let ve := if !genre.isEmpty then { ve with genre := some genre } else ve
        let ve := if video_name ≠ base_name ++ ".mp4"
          then { ve with video_filename := some video_name } else ve
        let ve := match cover_filename with
          | some c => if c.neqStr (base_name ++ ".jpg") then { ve with cover_filename := some c }
              else ve
          | none => ve
        let ve := match duration with
          | some d => if d ≠ 0 then { ve with duration_seconds := some (round2 d) } else ve
          | none => ve
        let ve := { ve with processed_at := some w.now }
        (.ok (some (ve, extra_metadata, base_name)), cs1 ++ cs2 ++ pr.2)

/-- process_video_file_offline: build the minimal entry from the file name and
the local duration probe alone. -/
def process_video_file_offline (w : Providers) (video_name : String) :
    (VideoEntry × String) × List ProviderCall :=
  let base_name := pathStem video_name
  let pr := get_video_duration w (VIDEOS_DIR ++ "/" ++ video_name)
  let duration := pr.1
  let ve : VideoEntry := { filename := base_name }
  let ve := if video_name ≠ base_name ++ ".mp4"
    then { ve with video_filename := some video_name } else ve
  let ve := match duration with
    | some d => if d ≠ 0 then { ve with duration_seconds := some (round2 d) } else ve
    | none => ve
  let ve := { ve with processed_at := some w.now }
  ((ve, base_name), pr.2)

/-- The mutable state of the main processing loop: the in-memory videos map
and extra metadata dict, the three counters, and the current contents of the
two files on disk (initially the contents that load_existing_data read). -/
structure LoopState where
  videos_map : List (String × VideoEntry)
  extra : List (String × MetadataRecord)
  processed_count : Nat := 0
  updated_count : Nat := 0
  cover_downloaded_count : Nat := 0
  disk : Disk
deriving Repr, DecidableEq

/-- The tail of each loop iteration, source lines 486 to 491: save both JSON
files after every file for resume capability, then count the cover as
available when not offline and get_existing_cover is truthy.  An exception
raised by the save propagates (the cover count is skipped), with the disk in
whatever state the aborted write left it. -/
def post_save (no_internet : Bool) (st : LoopState) (base_name : String) :
    LoopState × Option String :=
  match save_json_files st.videos_map st.extra st.disk with
  | (.ok _, disk2) =>
    let st1 := { st with disk := disk2 }
    if !no_internet && (get_existing_cover base_name).isSome then
      ({ st1 with cover_downloaded_count := st1.cover_downloaded_count + 1 }, none)
    else (st1, none)
  | (.error e, disk2) => ({ st with disk := disk2 }, some e)

/-- One iteration of the main for loop over video files: classify the file as
existing (update when needs_update says so) or new (offline or online
processing), mutate the state, then run the per-file save and cover count.
An exception in the classification or processing phase propagates before any
visible mutation; an exception in the save propagates after the in-memory
mutation, with the disk truncated.  The calls made before the exception are
still reported.  The result pairs the state the iteration leaves behind with
the exception it raises, if any. -/
def process_one (w : Providers) (no_internet : Bool) (st : LoopState) (video_name : String) :
    (LoopState × Option String) × List ProviderCall :=
  let base_name := pathStem video_name
  let step : Except String LoopState × List ProviderCall :=
    match mapFind st.videos_map base_name with
    | some video_entry =>
      let nu := needs_update video_entry no_internet
      if nu.1 then
        match update_video_entry w video_entry with
        | (.error e, cs) => (.error e, cs)
        | (.ok (updated_entry, new_extra), cs) =>
          -- the updated entry is a nonempty dict, hence always truthy
          (.ok { st with
            videos_map := mapInsert st.videos_map base_name updated_entry,
            extra := match new_extra with
              | some m => if recordTruthy m then mapInsert st.extra base_name m else st.extra
              | none => st.extra,
            updated_count := st.updated_count + 1 }, cs)
      else (.ok st, [])
    | none =>
      if no_internet then
        let pr := process_video_file_offline w video_name
        (.ok { st with
          videos_map := mapInsert st.videos_map pr.1.2 pr.1.1,
          processed_count := st.processed_count + 1 }, pr.2)
      else
        match process_video_file w video_name with
        | (.error e, cs) => (.error e, cs)
        | (.ok none, cs) => (.ok st, cs)
        | (.ok (some (entry, extra_md, bn)), cs) =>
          (.ok { st with
            videos_map := mapInsert st.videos_map bn entry,
            extra := mapInsert st.extra bn extra_md,
            processed_count := st.processed_count + 1 }, cs)
  match step with
  | (.error e, cs) => ((st, some e), cs)
  | (.ok st1, cs) => (post_save no_internet st1 base_name, cs)

/-- The for loop of main over the video files.  An exception in one iteration
stops the loop and is reported as the second component, together with the
state the raising iteration left behind (a classification or processing
exception leaves the entry state; a save exception leaves the mutated map and
the truncated disk). -/
def loop_files (w : Providers) (no_internet : Bool) :
    List String → LoopState → (LoopState × Option String) × List ProviderCall
  | [], st => ((st, none), [])
  | f :: rest, st =>
    match process_one w no_internet st f with
    | ((st1, some e), cs) => ((st1, some e), cs)
    | ((st1, none), cs) =>
      let r := loop_files w no_internet rest st1
      ((r.1.1, r.1.2), cs ++ r.2)

/-- The try block with its finally clause: run the loop, then attempt the save
once more on every exit path (normal completion or exception).  When the save
inside finally raises, its exception is the one that propagates, replacing any
in-flight exception, as Python defines for finally blocks. -/
def run_files (w : Providers) (no_internet : Bool) (files : List String) (st0 : LoopState) :
    (LoopState × Option String) × List ProviderCall :=
  let r := loop_files w no_internet files st0
  match save_json_files r.1.1.videos_map r.1.1.extra r.1.1.disk with
  | (.ok _, disk2) => (({ r.1.1 with disk := disk2 }, r.1.2), r.2)
  | (.error e, disk2) => (({ r.1.1 with disk := disk2 }, some e), r.2)

/-- Build the videos map from the loaded videos list, keyed by the filename
field, as the dict comprehension in main does. -/
def build_videos_map (l : List VideoEntry) : List (String × VideoEntry) :=
  l.foldl (fun m e => mapInsert m e.filename e) []

/-- Outcome of a run of main: the two early unix-exit-1 paths, the ValueError
raised for a loaded catalog with colliding filenames (before any save), or a
completed or aborted loop together with the uncaught exception, if any, and
the external calls performed. -/
inductive MainOutcome where
  | noInternet
  | noFiles
  | dupError
  | ran (st : LoopState) (err : Option String) (calls : List ProviderCall)
deriving Repr, DecidableEq

/-- main, after argument parsing: the connectivity gate, the empty-file-list
gate, the duplicate-base-name check on the loaded catalog, then the processing
loop guarded by the finally save.  Directory scanning and JSON loading are
external input here: videos_list and extra0 are the loaded file contents
(also the initial on-disk state), video_files the scanned file names. -/
def main (w : Providers) (no_internet : Bool) (has_internet : Bool)
    (videos_list : List VideoEntry) (extra0 : List (String × MetadataRecord))
    (video_files : List String) : MainOutcome :=
  if !no_internet && !has_internet then .noInternet
  else if video_files.isEmpty then .noFiles
  else
    let videos_map := build_videos_map videos_list
    if videos_map.length < videos_list.length then .dupError
    else
      let st0 : LoopState := { videos_map := videos_map, extra := extra0,
                               disk := { videos_doc := some videos_list, extra_doc := extra0 } }
      let r := run_files w no_internet video_files st0
      .ran r.1.1 r.1.2 r.2

/-- The uncaught exception of a run, when the loop was reached. -/
def MainOutcome.runError : MainOutcome → Option String
  | .ran _ err _ => err
  | _ => none

/-- The external provider calls a run performed. -/
def MainOutcome.runCalls : MainOutcome → List ProviderCall
  | .ran _ _ cs => cs
  | _ => []

/-- The keys of the in-memory catalog after a run that reached the loop. -/
def MainOutcome.catalogKeys : MainOutcome → List String
  | .ran st _ _ => mapKeys st.videos_map
  | _ => []

/-- The on-disk contents after a run that reached the loop; none when the run
exited before ever entering the loop (in which case nothing was written). -/
def MainOutcome.persisted : MainOutcome → Option Disk
  | .ran st _ _ => some st.disk
  | _ => none

/-- A second invocation of the tool over the same file set, loading the
documents the previous run persisted.  A truncated videos.json makes json.load
raise at startup, so no run happens in that case. -/
def rerunFromDisk (w : Providers) (video_files : List String) (p : Disk) :
    Option MainOutcome :=
  match p.videos_doc with
  | some videos_list => some (main w false true videos_list p.extra_doc video_files)
  | none => none

end UpdateSongData

namespace DownloadSongData

/-- Cover extensions recognized by download-song-data.py. -/
def COVER_EXTENSIONS : List String := [".jpg", ".jpeg", ".png", ".webp"]

/-- get_existing_cover of download-song-data.py: check the covers directory,
modeled as the list of file names it contains, for the base name with any
supported extension, and return the matching file name.  This is the
existence-checking behavior the specification describes. -/
def get_existing_cover (covers_fs : List String) (base_name : String) : Option String :=
  match COVER_EXTENSIONS.find? (fun ext => covers_fs.contains (base_name ++ ext)) with
  | some ext => some (base_name ++ ext)
  | none => none

end DownloadSongData

namespace UpdateSongData

/-! ### Association list lemmas -/

theorem any_key_eq_true {α : Type} {m : List (String × α)} {k : String} :
    (m.any (fun p => p.1 == k)) = true ↔ k ∈ mapKeys m := by
  induction m with
  | nil => simp [mapKeys]
  | cons p t ih =>
    simp only [List.any_cons, Bool.or_eq_true, ih, mapKeys, List.map_cons, List.mem_cons]
    constructor
    · rintro (h | h)
      · exact Or.inl (beq_iff_eq.mp h).symm
      · exact Or.inr h
    · rintro (h | h)
      · exact Or.inl (beq_iff_eq.mpr h.symm)
      · exact Or.inr h

theorem mapFind_insert_self {α : Type} (m : List (String × α)) (k : String) (v : α) :
    mapFind (mapInsert m k v) k = some v := by
  unfold mapInsert
  split
  · rename_i h
    induction m with
    | nil => simp at h
    | cons p t ih =>
      by_cases hp : (p.1 == k) = true
      · simp [mapFind, List.find?, hp]
      · simp only [List.any_cons, Bool.or_eq_true] at h
        rcases h with h | h
        · exact absurd h hp
        · have := ih h
          simpa [mapFind, List.find?, hp] using this
  · rename_i h
    induction m with
    | nil => simp [mapFind, List.find?]
    | cons p t ih =>
      simp only [List.any_cons, Bool.or_eq_true, not_or] at h
      have hp : (p.1 == k) = false := by
        cases hb : (p.1 == k) <;> simp_all
      have ht := ih (by simpa using h.2)
      simpa [mapFind, List.find?, hp] using ht

theorem mapKeys_insert_of_mem {α : Type} {m : List (String × α)} {k : String} (v : α)
    (h : k ∈ mapKeys m) : mapKeys (mapInsert m k v) = mapKeys m := by
  unfold mapInsert
  rw [if_pos (any_key_eq_true.mpr h)]
  unfold mapKeys
  rw [List.map_map]
  apply List.map_congr_left
  intro p _
  by_cases hp : (p.1 == k) = true
  · simp [Function.comp, hp, beq_iff_eq.mp hp]
  · simp [Function.comp, hp]

theorem mapKeys_insert_of_not_mem {α : Type} {m : List (String × α)} {k : String} (v : α)
    (h : k ∉ mapKeys m) : mapKeys (mapInsert m k v) = mapKeys m ++ [k] := by
  unfold mapInsert
  rw [if_neg (by simpa using fun hc => h (any_key_eq_true.mp hc))]
  simp [mapKeys]

theorem mapFind_mem {α : Type} {m : List (String × α)} {k : String} {v : α}
    (h : mapFind m k = some v) : (k, v) ∈ m := by
  unfold mapFind at h
  rcases hf : m.find? (fun p => p.1 == k) with _ | q
  · rw [hf] at h; simp at h
  · rw [hf] at h
    simp at h
    have hmem := List.mem_of_find?_eq_some hf
    have hkey := List.find?_some hf
    have hq : q = (k, v) := by
      rcases q with ⟨a, b⟩
      simp only [beq_iff_eq] at hkey
      simp_all
    rwa [hq] at hmem

theorem mapFind_isSome_of_mem_keys {α : Type} {m : List (String × α)} {k : String}
    (h : k ∈ mapKeys m) : ∃ v, mapFind m k = some v := by
  induction m with
  | nil => simp [mapKeys] at h
  | cons p t ih =>
    by_cases hp : (p.1 == k) = true
    · exact ⟨p.2, by simp [mapFind, List.find?, hp]⟩
    · have hk : k ∈ mapKeys t := by
        simp only [mapKeys, List.map_cons, List.mem_cons] at h
        rcases h with h | h
        · exact absurd (beq_iff_eq.mpr h.symm) (by simpa using hp)
        · exact h
      rcases ih hk with ⟨v, hv⟩
      exact ⟨v, by simpa [mapFind, List.find?, hp] using hv⟩

end UpdateSongData

namespace UpdateSongData

/-- The catalog map invariant: every stored entry carries its own key in its
filename field, and the keys are pairwise distinct. -/
def mapInv (m : List (String × VideoEntry)) : Prop :=
  (∀ p ∈ m, p.2.filename = p.1) ∧ (mapKeys m).Nodup

theorem mapInv_insert {m : List (String × VideoEntry)} {k : String} {v : VideoEntry}
    (hm : mapInv m) (hv : v.filename = k) : mapInv (mapInsert m k v) := by
  rcases hm with ⟨h1, h2⟩
  by_cases hk : k ∈ mapKeys m
  · constructor
    · unfold mapInsert
      rw [if_pos (any_key_eq_true.mpr hk)]
      intro p hp
      rcases List.mem_map.mp hp with ⟨q, hq, hpq⟩
      by_cases hq1 : (q.1 == k) = true
      · rw [← hpq]; simp [hq1, hv]
      · rw [← hpq]; simp only [hq1]; simpa using h1 q hq
    · rw [mapKeys_insert_of_mem v hk]; exact h2
  · constructor
    · unfold mapInsert
      rw [if_neg (by simpa using fun hc => hk (any_key_eq_true.mp hc))]
      intro p hp
      rcases List.mem_append.mp hp with h | h
      · exact h1 p h
      · have : p = (k, v) := by simpa using h
        rw [this]; simpa using hv
    · rw [mapKeys_insert_of_not_mem v hk]
      rw [List.nodup_append]
      refine ⟨h2, List.nodup_singleton k, ?_⟩
      intro a ha hb
      have hak : a = k := by simpa using hb
      exact hk (hak ▸ ha)

theorem mapFind_filename {m : List (String × VideoEntry)} (hm : mapInv m) {k : String}
    {e : VideoEntry} (h : mapFind m k = some e) : e.filename = k := by
  simpa using hm.1 (k, e) (mapFind_mem h)

theorem mem_mapInsert {α : Type} {m : List (String × α)} {k : String} {v : α}
    {p : String × α} (h : p ∈ mapInsert m k v) : p ∈ m ∨ p = (k, v) := by
  unfold mapInsert at h
  split at h
  · rcases List.mem_map.mp h with ⟨q, hq, hpq⟩
    by_cases hq1 : (q.1 == k) = true
    · right; rw [← hpq]; simp [hq1]
    · left
      have : p = q := by rw [← hpq]; simp [hq1]
      exact this ▸ hq
  · rcases List.mem_append.mp h with h | h
    · exact Or.inl h
    · right; simpa using h

theorem foldl_build_inv : ∀ (l : List VideoEntry) (acc : List (String × VideoEntry)),
    mapInv acc → mapInv (l.foldl (fun m e => mapInsert m e.filename e) acc)
  | [], _, h => h
  | e :: t, acc, h => by
    rw [List.foldl_cons]
    exact foldl_build_inv t _ (mapInv_insert h rfl)

theorem build_videos_map_inv (l : List VideoEntry) : mapInv (build_videos_map l) :=
  foldl_build_inv l [] ⟨by simp, by simp [mapKeys]⟩

theorem foldl_build_eq : ∀ (l : List VideoEntry) (acc : List (String × VideoEntry)),
    (mapKeys acc ++ l.map VideoEntry.filename).Nodup →
    l.foldl (fun m e => mapInsert m e.filename e) acc
      = acc ++ l.map (fun e => (e.filename, e))
  | [], acc, _ => by simp
  | e :: t, acc, h => by
    have hnotin : e.filename ∉ mapKeys acc := by
      intro hmem
      exact (List.nodup_append.mp h).2.2 hmem (by simp)
    have hins : mapInsert acc e.filename e = acc ++ [(e.filename, e)] := by
      unfold mapInsert
      rw [if_neg (by simpa using fun hc => hnotin (any_key_eq_true.mp hc))]
    have hkeys : mapKeys (acc ++ [(e.filename, e)]) = mapKeys acc ++ [e.filename] := by
      simp [mapKeys]
    have h2 : (mapKeys (acc ++ [(e.filename, e)]) ++ t.map VideoEntry.filename).Nodup := by
      rw [hkeys, List.append_assoc]
      simpa using h
    rw [List.foldl_cons]
    show (t.foldl (fun m e => mapInsert m e.filename e) (mapInsert acc e.filename e))
      = acc ++ (e :: t).map (fun e => (e.filename, e))
    rw [hins, foldl_build_eq t _ h2]
    simp

theorem build_eq_of_nodup {l : List VideoEntry} (h : (l.map VideoEntry.filename).Nodup) :
    build_videos_map l = l.map (fun e => (e.filename, e)) := by
  have := foldl_build_eq l [] (by simpa [mapKeys] using h)
  simpa [build_videos_map] using this

theorem mapValues_build_of_nodup {l : List VideoEntry}
    (h : (l.map VideoEntry.filename).Nodup) : mapValues (build_videos_map l) = l := by
  rw [build_eq_of_nodup h]
  unfold mapValues
  rw [List.map_map]
  have hcomp : (Prod.snd ∘ fun e : VideoEntry => (e.filename, e)) = id := rfl
  rw [hcomp, List.map_id]

theorem build_length_of_nodup {l : List VideoEntry}
    (h : (l.map VideoEntry.filename).Nodup) : (build_videos_map l).length = l.length := by
  rw [build_eq_of_nodup h]; simp

theorem foldl_build_mem : ∀ (l : List VideoEntry) (acc : List (String × VideoEntry))
    (p : String × VideoEntry),
    p ∈ l.foldl (fun m e => mapInsert m e.filename e) acc → p ∈ acc ∨ p.2 ∈ l
  | [], _, _, h => Or.inl h
  | e :: t, acc, p, h => by
    rw [List.foldl_cons] at h
    rcases foldl_build_mem t _ p h with h1 | h1
    · rcases mem_mapInsert h1 with h2 | h2
      · exact Or.inl h2
      · right; rw [h2]; simp
    · right; simp [h1]

theorem build_snd_mem {l : List VideoEntry} {p : String × VideoEntry}
    (h : p ∈ build_videos_map l) : p.2 ∈ l := by
  rcases foldl_build_mem l [] p h with h1 | h1
  · simp at h1
  · exact h1

theorem values_map_filename {m : List (String × VideoEntry)}
    (hm : ∀ p ∈ m, p.2.filename = p.1) :
    (mapValues m).map VideoEntry.filename = mapKeys m := by
  unfold mapValues mapKeys
  rw [List.map_map]
  apply List.map_congr_left
  intro p hp
  exact hm p hp

theorem build_mapValues_of_inv {m : List (String × VideoEntry)} (hm : mapInv m) :
    build_videos_map (mapValues m) = m := by
  have hn : ((mapValues m).map VideoEntry.filename).Nodup := by
    rw [values_map_filename hm.1]; exact hm.2
  rw [build_eq_of_nodup hn]
  unfold mapValues
  rw [List.map_map]
  have : m.map ((fun e : VideoEntry => (e.filename, e)) ∘ Prod.snd) = m.map id := by
    apply List.map_congr_left
    intro p hp
    simp [Function.comp, hm.1 p hp]
  simpa using this

end UpdateSongData

namespace UpdateSongData

/-! ### Behavior of the embedded script functions -/

theorem get_existing_cover_isSome (b : String) : (get_existing_cover b).isSome = true := rfl

/-- The early return of download_cover always fires, because get_existing_cover
is unconditionally truthy: the cover subprocess is dead code and no cover is
ever downloaded or reported missing. -/
theorem download_cover_eq (w : Providers) (b q : String) :
    download_cover w b q
      = (.ok (some (CoverValue.path (COVERS_DIR ++ "/" ++ b ++ ".jpg"))), []) := rfl

theorem get_spotdl_metadata_eq (w : Providers) (q : String) :
    get_spotdl_metadata w q = (get_spotdl_metadata_result w q, [ProviderCall.metaLookup q]) := rfl

theorem needs_update_offline (e : VideoEntry) : needs_update e true = (false, []) := rfl

/-- Online, needs_update reports only the metadata reason: the missing-cover
reason is unreachable because get_existing_cover is always truthy. -/
theorem needs_update_online (e : VideoEntry) :
    needs_update e false
      = (!pyTruthy e.artist || !pyTruthy e.title,
         if !pyTruthy e.artist || !pyTruthy e.title then ["missing metadata"] else []) := by
  cases h : (!pyTruthy e.artist || !pyTruthy e.title) <;>
    simp [needs_update, get_existing_cover, h]

theorem save_json_files_ok {m : List (String × VideoEntry)}
    (x : List (String × MetadataRecord)) (d : Disk)
    (h : (mapValues m).all VideoEntry.jsonSerializable = true) :
    save_json_files m x d
      = (.ok (), { videos_doc := some (mapValues m), extra_doc := x }) := by
  simp [save_json_files, h]

theorem save_json_files_err {m : List (String × VideoEntry)}
    (x : List (String × MetadataRecord)) (d : Disk)
    (h : (mapValues m).all VideoEntry.jsonSerializable = false) :
    save_json_files m x d
      = (.error "TypeError: PosixPath is not JSON serializable",
         { videos_doc := none, extra_doc := d.extra_doc }) := by
  simp [save_json_files, h]

/-- A successful offline save: the state gains the freshly written documents
and nothing else. -/
theorem post_save_ok_true (st : LoopState) (b : String)
    (h : (mapValues st.videos_map).all VideoEntry.jsonSerializable = true) :
    post_save true st b
      = ({ st with
            disk := { videos_doc := some (mapValues st.videos_map), extra_doc := st.extra } },
         none) := by
  unfold post_save
  rw [save_json_files_ok st.extra st.disk h]
  rfl

/-- A successful online save: the state also counts the cover, since
get_existing_cover is always truthy. -/
theorem post_save_ok_false (st : LoopState) (b : String)
    (h : (mapValues st.videos_map).all VideoEntry.jsonSerializable = true) :
    post_save false st b
      = ({ st with
            disk := { videos_doc := some (mapValues st.videos_map), extra_doc := st.extra },
            cover_downloaded_count := st.cover_downloaded_count + 1 },
         none) := by
  unfold post_save
  rw [save_json_files_ok st.extra st.disk h]
  rfl

/-- A failing save: videos.json is left truncated, the exception propagates
and the cover count is skipped. -/
theorem post_save_err (ni : Bool) (st : LoopState) (b : String)
    (h : (mapValues st.videos_map).all VideoEntry.jsonSerializable = false) :
    post_save ni st b
      = ({ st with disk := { videos_doc := none, extra_doc := st.disk.extra_doc } },
         some "TypeError: PosixPath is not JSON serializable") := by
  unfold post_save
  rw [save_json_files_err st.extra st.disk h]

theorem post_save_videos_map (ni : Bool) (st : LoopState) (b : String) :
    (post_save ni st b).1.videos_map = st.videos_map := by
  unfold post_save
  cases hsv : save_json_files st.videos_map st.extra st.disk with
  | mk r d2 =>
    cases r with
    | error e => rfl
    | ok u =>
      dsimp only
      split <;> rfl

theorem post_save_extra (ni : Bool) (st : LoopState) (b : String) :
    (post_save ni st b).1.extra = st.extra := by
  unfold post_save
  cases hsv : save_json_files st.videos_map st.extra st.disk with
  | mk r d2 =>
    cases r with
    | error e => rfl
    | ok u =>
      dsimp only
      split <;> rfl

/-- Full characterization of update_video_entry: the cover block never acts,
so the result is decided by the metadata block alone. -/
theorem update_video_entry_eq (w : Providers) (e : VideoEntry) :
    update_video_entry w e =
      if !pyTruthy e.artist && !pyTruthy e.title then
        match get_spotdl_metadata_result w e.filename with
        | some m =>
          (match extract_song_info m with
            | .error err => ((.error err : Except String (VideoEntry × Option MetadataRecord)),
                [ProviderCall.metaLookup e.filename])
            | .ok (artist, title, genre) =>
              let v1 := if pyTruthy artist then { e with artist := artist } else e
              let v2 := if pyTruthy title then { v1 with title := title } else v1
              let v3 := if !genre.isEmpty then { v2 with genre := some genre } else v2
              (.ok ({ v3 with processed_at := some w.now }, some m),
                [ProviderCall.metaLookup e.filename]))
        | none => (.ok (e, none), [ProviderCall.metaLookup e.filename])
      else (.ok (e, none), []) := by
  cases hc : !pyTruthy e.artist && !pyTruthy e.title
  · simp [update_video_entry, get_spotdl_metadata_eq, hc, get_existing_cover]
  · rcases hr : get_spotdl_metadata_result w e.filename with _ | m
    · simp [update_video_entry, get_spotdl_metadata_eq, hc, hr, get_existing_cover]
    · rcases hx : extract_song_info m with err | ⟨artist, title, genre⟩ <;>
        simp [update_video_entry, get_spotdl_metadata_eq, hc, hr, hx, get_existing_cover]

theorem update_video_entry_skip (w : Providers) {e : VideoEntry}
    (h : (!pyTruthy e.artist && !pyTruthy e.title) = false) :
    update_video_entry w e = (.ok (e, none), []) := by
  rw [update_video_entry_eq, h]
  simp

theorem update_video_entry_calls (w : Providers) (e : VideoEntry) :
    (update_video_entry w e).2
      = if !pyTruthy e.artist && !pyTruthy e.title
        then [ProviderCall.metaLookup e.filename] else [] := by
  rw [update_video_entry_eq]
  cases hc : !pyTruthy e.artist && !pyTruthy e.title
  · simp
  · rcases hr : get_spotdl_metadata_result w e.filename with _ | m
    · simp
    · rcases hx : extract_song_info m with err | ⟨artist, title, genre⟩ <;> simp [hx]

theorem update_video_entry_fields (w : Providers) (e : VideoEntry) :
    ∀ e1 x, (update_video_entry w e).1 = .ok (e1, x) →
      e1.filename = e.filename ∧ e1.duration_seconds = e.duration_seconds := by
  intro e1 x h
  rw [update_video_entry_eq] at h
  by_cases hc : (!pyTruthy e.artist && !pyTruthy e.title) = true
  · rw [if_pos hc] at h
    rcases hr : get_spotdl_metadata_result w e.filename with _ | m
    · rw [hr] at h
      simp only [Except.ok.injEq, Prod.mk.injEq] at h
      rw [← h.1]
      exact ⟨rfl, rfl⟩
    · rw [hr] at h
      dsimp only at h
      rcases hx : extract_song_info m with err | ⟨artist, title, genre⟩
      · rw [hx] at h
        simp at h
      · rw [hx] at h
        dsimp only at h
        simp only [Except.ok.injEq, Prod.mk.injEq] at h
        rw [← h.1]
        refine ⟨?_, ?_⟩ <;>
          simp [apply_ite VideoEntry.filename, apply_ite VideoEntry.duration_seconds]
  · rw [if_neg hc] at h
    simp only [Except.ok.injEq, Prod.mk.injEq] at h
    rw [← h.1]
    exact ⟨rfl, rfl⟩

end UpdateSongData

namespace UpdateSongData

/-- Full characterization of process_video_file: the cover download always
short-circuits to the constant covers path without a subprocess call, so the
calls are exactly one metadata lookup and one duration probe. -/
theorem process_video_file_eq (w : Providers) (f : String) :
    process_video_file w f =
      match get_spotdl_metadata_result w (pathStem f) with
      | none => (.ok none, [ProviderCall.metaLookup (pathStem f)])
      | some m =>
        match extract_song_info m with
        | .error err =>
          ((.error err : Except String (Option (VideoEntry × MetadataRecord × String))),
            [ProviderCall.metaLookup (pathStem f)])
        | .ok (artist, title, genre) =>
          let b := pathStem f
          let v0 : VideoEntry := { filename := b }
          let v1 := if pyTruthy artist then { v0 with artist := artist } else v0
          let v2 := if pyTruthy title then { v1 with title := title } else v1
          let v3 := if !genre.isEmpty then { v2 with genre := some genre } else v2
          let v4 := if f ≠ b ++ ".mp4" then { v3 with video_filename := some f } else v3
          let v5 := { v4 with
            cover_filename := some (CoverValue.path (COVERS_DIR ++ "/" ++ b ++ ".jpg")) }
          let v6 := match w.ffprobe (VIDEOS_DIR ++ "/" ++ f) with
            | some d => if d ≠ 0 then { v5 with duration_seconds := some (round2 d) } else v5
            | none => v5
          (.ok (some ({ v6 with processed_at := some w.now }, m, b)),
            [ProviderCall.metaLookup b, ProviderCall.probe (VIDEOS_DIR ++ "/" ++ f)]) := by
  rcases hr : get_spotdl_metadata_result w (pathStem f) with _ | m
  · simp [process_video_file, get_spotdl_metadata_eq, hr]
  · rcases hx : extract_song_info m with err | ⟨artist, title, genre⟩
    · simp [process_video_file, get_spotdl_metadata_eq, hr, hx, download_cover_eq]
    · rcases hd : w.ffprobe (VIDEOS_DIR ++ "/" ++ f) with _ | d <;>
        simp [process_video_file, get_spotdl_metadata_eq, hr, hx, hd, download_cover_eq,
          get_video_duration, CoverValue.neqStr]

theorem process_video_file_ok_fields (w : Providers) (f : String) :
    ∀ e md bn cs, process_video_file w f = (.ok (some (e, md, bn)), cs) →
      bn = pathStem f ∧ e.filename = pathStem f := by
  intro e md bn cs h
  rw [process_video_file_eq] at h
  rcases hr : get_spotdl_metadata_result w (pathStem f) with _ | m
  · rw [hr] at h; simp at h
  · rw [hr] at h
    dsimp only at h
    rcases hx : extract_song_info m with err | ⟨artist, title, genre⟩
    · rw [hx] at h; simp at h
    · rw [hx] at h
      dsimp only at h
      simp only [Prod.mk.injEq, Except.ok.injEq, Option.some.injEq] at h
      rcases h with ⟨⟨he, _, hbn⟩, _⟩
      refine ⟨hbn.symm, ?_⟩
      rw [← he]
      rcases hd : w.ffprobe (VIDEOS_DIR ++ "/" ++ f) with _ | d <;>
        simp [hd, apply_ite VideoEntry.filename]

set_option maxHeartbeats 1000000 in
/-- When the duration probe fails or returns zero, the built entry omits the
duration_seconds field: the value is written only when it is truthy. -/
theorem process_video_file_duration_omitted (w : Providers) (f : String)
    (hp : w.ffprobe (VIDEOS_DIR ++ "/" ++ f) = none ∨ w.ffprobe (VIDEOS_DIR ++ "/" ++ f) = some 0) :
    ∀ e md bn cs, process_video_file w f = (.ok (some (e, md, bn)), cs) →
      e.duration_seconds = none := by
  intro e md bn cs h
  rw [process_video_file_eq] at h
  rcases hr : get_spotdl_metadata_result w (pathStem f) with _ | m
  · rw [hr] at h; simp at h
  · rw [hr] at h
    dsimp only at h
    rcases hx : extract_song_info m with err | ⟨artist, title, genre⟩
    · rw [hx] at h; simp at h
    · rw [hx] at h
      dsimp only at h
      simp only [Prod.mk.injEq, Except.ok.injEq, Option.some.injEq] at h
      rcases h with ⟨⟨he, _, _⟩, _⟩
      rw [← he]
      rcases hp with hp | hp <;>
        simp [hp, apply_ite VideoEntry.duration_seconds]

theorem process_video_file_offline_key (w : Providers) (f : String) :
    (process_video_file_offline w f).1.2 = pathStem f := rfl

theorem process_video_file_offline_calls (w : Providers) (f : String) :
    (process_video_file_offline w f).2 = [ProviderCall.probe (VIDEOS_DIR ++ "/" ++ f)] := rfl

theorem process_video_file_offline_filename (w : Providers) (f : String) :
    (process_video_file_offline w f).1.1.filename = pathStem f := by
  unfold process_video_file_offline
  rcases hd : w.ffprobe (VIDEOS_DIR ++ "/" ++ f) with _ | d <;>
    simp [get_video_duration, hd, apply_ite VideoEntry.filename]

/-- Offline variant of the omitted-duration property. -/
theorem process_video_file_offline_duration_omitted (w : Providers) (f : String)
    (hp : w.ffprobe (VIDEOS_DIR ++ "/" ++ f) = none ∨ w.ffprobe (VIDEOS_DIR ++ "/" ++ f) = some 0) :
    (process_video_file_offline w f).1.1.duration_seconds = none := by
  unfold process_video_file_offline
  rcases hp with hp | hp <;>
    simp [get_video_duration, hp, apply_ite VideoEntry.duration_seconds]

end UpdateSongData

namespace UpdateSongData

/-! ### Serializability of stored entries -/

/-- Every entry stored in the map can be serialized by json.dump.  Entries
loaded from a JSON document always can; the property is broken exactly by the
pathlib.Path a processed new file stores in cover_filename. -/
def serializableMap (m : List (String × VideoEntry)) : Prop :=
  ∀ p ∈ m, p.2.jsonSerializable = true

theorem serializableMap_all {m : List (String × VideoEntry)} (h : serializableMap m) :
    (mapValues m).all VideoEntry.jsonSerializable = true := by
  rw [List.all_eq_true]
  intro e he
  unfold mapValues at he
  rcases List.mem_map.mp he with ⟨p, hp, hpe⟩
  rw [← hpe]
  exact h p hp

theorem serializableMap_insert {m : List (String × VideoEntry)} {k : String} {v : VideoEntry}
    (h : serializableMap m) (hv : v.jsonSerializable = true) :
    serializableMap (mapInsert m k v) := by
  intro p hp
  rcases mem_mapInsert hp with h1 | h1
  · exact h p h1
  · rw [h1]
    exact hv

/-- Entries built by the offline processor set no cover_filename, so they are
always serializable. -/
theorem process_video_file_offline_serializable (w : Providers) (f : String) :
    (process_video_file_offline w f).1.1.jsonSerializable = true := by
  unfold process_video_file_offline
  rcases hd : w.ffprobe (VIDEOS_DIR ++ "/" ++ f) with _ | d <;>
    simp only [get_video_duration, hd] <;>
    split <;> (try split) <;> rfl

/-- A successful save keeps the state and reports no exception: the pair form
convenient for rewriting. -/
theorem post_save_pair_of_serializable {ni : Bool} {st : LoopState} {b : String}
    (h : serializableMap st.videos_map) :
    post_save ni st b = ((post_save ni st b).1, none) := by
  have hall := serializableMap_all h
  cases ni
  · rw [post_save_ok_false st b hall]
  · rw [post_save_ok_true st b hall]

/-- The offline iteration tail is exactly one save attempt: on success the
fresh documents are recorded, on failure the truncated disk and the exception
are. -/
theorem post_save_true_eq (st : LoopState) (b : String) :
    post_save true st b
      = (match save_json_files st.videos_map st.extra st.disk with
         | (.ok _, disk2) => ({ st with disk := disk2 }, none)
         | (.error e2, disk2) => ({ st with disk := disk2 }, some e2)) := by
  unfold post_save
  cases hsv : save_json_files st.videos_map st.extra st.disk with
  | mk r d2 =>
    cases r with
    | error e2 => rfl
    | ok u => rfl

/-! ### Behavior of one loop iteration -/

theorem process_one_skip (w : Providers) (ni : Bool) (st : LoopState) (f : String)
    {e : VideoEntry} (hf : mapFind st.videos_map (pathStem f) = some e)
    (hn : (needs_update e ni).1 = false) :
    process_one w ni st f = (post_save ni st (pathStem f), []) := by
  unfold process_one
  dsimp only
  rw [hf]
  simp [hn]

theorem process_one_update (w : Providers) (ni : Bool) (st : LoopState) (f : String)
    {e ue : VideoEntry} {nx : Option MetadataRecord} {cs : List ProviderCall}
    (hf : mapFind st.videos_map (pathStem f) = some e)
    (hn : (needs_update e ni).1 = true)
    (hu : update_video_entry w e = (.ok (ue, nx), cs)) :
    process_one w ni st f =
      (post_save ni { st with
          videos_map := mapInsert st.videos_map (pathStem f) ue,
          extra := match nx with
            | some m => if recordTruthy m then mapInsert st.extra (pathStem f) m else st.extra
            | none => st.extra,
          updated_count := st.updated_count + 1 } (pathStem f), cs) := by
  unfold process_one
  dsimp only
  rw [hf]
  cases nx <;> simp [hn, hu]

theorem process_one_update_err (w : Providers) (ni : Bool) (st : LoopState) (f : String)
    {e : VideoEntry} {err : String} {cs : List ProviderCall}
    (hf : mapFind st.videos_map (pathStem f) = some e)
    (hn : (needs_update e ni).1 = true)
    (hu : update_video_entry w e = (.error err, cs)) :
    process_one w ni st f = ((st, some err), cs) := by
  unfold process_one
  dsimp only
  rw [hf]
  simp [hn, hu]

theorem process_one_new_offline (w : Providers) (st : LoopState) (f : String)
    (hf : mapFind st.videos_map (pathStem f) = none) :
    process_one w true st f =
      (post_save true { st with
          videos_map := mapInsert st.videos_map (pathStem f) (process_video_file_offline w f).1.1,
          processed_count := st.processed_count + 1 } (pathStem f),
       [ProviderCall.probe (VIDEOS_DIR ++ "/" ++ f)]) := by
  unfold process_one
  dsimp only
  rw [hf]
  rfl

theorem process_one_new_online_err (w : Providers) (st : LoopState) (f : String)
    {err : String} {cs : List ProviderCall}
    (hf : mapFind st.videos_map (pathStem f) = none)
    (hp : process_video_file w f = (.error err, cs)) :
    process_one w false st f = ((st, some err), cs) := by
  unfold process_one
  dsimp only
  rw [hf]
  simp [hp]

theorem process_one_new_online_none (w : Providers) (st : LoopState) (f : String)
    {cs : List ProviderCall}
    (hf : mapFind st.videos_map (pathStem f) = none)
    (hp : process_video_file w f = (.ok none, cs)) :
    process_one w false st f = (post_save false st (pathStem f), cs) := by
  unfold process_one
  dsimp only
  rw [hf]
  simp [hp]

theorem process_one_new_online_some (w : Providers) (st : LoopState) (f : String)
    {entry : VideoEntry} {md : MetadataRecord} {bn : String} {cs : List ProviderCall}
    (hf : mapFind st.videos_map (pathStem f) = none)
    (hp : process_video_file w f = (.ok (some (entry, md, bn)), cs)) :
    process_one w false st f =
      (post_save false { st with
          videos_map := mapInsert st.videos_map bn entry,
          extra := mapInsert st.extra bn md,
          processed_count := st.processed_count + 1 } (pathStem f), cs) := by
  unfold process_one
  dsimp only
  rw [hf]
  simp [hp]

theorem fst_of_pair_eq {A B : Type} {x : A × B} {a : A} {b : B} (h : x = (a, b)) :
    x.1 = a := by
  rw [h]

/-- Every iteration preserves the catalog map invariant, whether it completed,
raised while processing, or raised while saving. -/
theorem process_one_mapInv {w : Providers} {ni : Bool} {st st1 : LoopState} {f : String}
    {err : Option String} {cs : List ProviderCall} (hm : mapInv st.videos_map)
    (h : process_one w ni st f = ((st1, err), cs)) : mapInv st1.videos_map := by
  rcases hf : mapFind st.videos_map (pathStem f) with _ | e
  · cases ni
    · rcases hp : process_video_file w f with ⟨r, cs2⟩
      rcases r with err2 | o
      · rw [process_one_new_online_err w st f hf hp] at h
        simp only [Prod.mk.injEq] at h
        rw [← h.1.1]
        exact hm
      · rcases o with _ | ⟨entry, md, bn⟩
        · rw [process_one_new_online_none w st f hf hp] at h
          simp only [Prod.mk.injEq] at h
          rw [← fst_of_pair_eq h.1, post_save_videos_map]
          exact hm
        · rw [process_one_new_online_some w st f hf hp] at h
          simp only [Prod.mk.injEq] at h
          rcases process_video_file_ok_fields w f entry md bn cs2 hp with ⟨hbn, hfn⟩
          rw [← fst_of_pair_eq h.1, post_save_videos_map]
          exact mapInv_insert hm (by rw [hfn, hbn])
    · rw [process_one_new_offline w st f hf] at h
      simp only [Prod.mk.injEq] at h
      rw [← fst_of_pair_eq h.1, post_save_videos_map]
      exact mapInv_insert hm (process_video_file_offline_filename w f)
  · cases hn : (needs_update e ni).1
    · rw [process_one_skip w ni st f hf hn] at h
      simp only [Prod.mk.injEq] at h
      rw [← fst_of_pair_eq h.1, post_save_videos_map]
      exact hm
    · rcases hu : update_video_entry w e with ⟨r, cs2⟩
      rcases r with err2 | ⟨ue, nx⟩
      · rw [process_one_update_err w ni st f hf hn hu] at h
        simp only [Prod.mk.injEq] at h
        rw [← h.1.1]
        exact hm
      · rw [process_one_update w ni st f hf hn hu] at h
        simp only [Prod.mk.injEq] at h
        have hue := update_video_entry_fields w e ue nx (by rw [hu])
        rw [← fst_of_pair_eq h.1, post_save_videos_map]
        exact mapInv_insert hm (by rw [hue.1, mapFind_filename hm hf])

end UpdateSongData

namespace UpdateSongData

/-! ### Runs where every metadata lookup fails -/

/-- A provider on which every metadata lookup comes back empty: nonzero exit,
timeout, no record, multiple records or a falsy record, the failure modes the
adapter collapses into None. -/
def lookupAllFail (w : Providers) : Prop :=
  ∀ q, get_spotdl_metadata_result w q = none

theorem update_video_entry_allfail {w : Providers} (hw : lookupAllFail w) (e : VideoEntry) :
    ∃ cs, update_video_entry w e = (.ok (e, none), cs) := by
  rw [update_video_entry_eq, hw e.filename]
  cases hc : !pyTruthy e.artist && !pyTruthy e.title
  · exact ⟨[], by simp⟩
  · exact ⟨[ProviderCall.metaLookup e.filename], by simp⟩

theorem process_video_file_allfail {w : Providers} (hw : lookupAllFail w) (f : String) :
    ∃ cs, process_video_file w f = (.ok none, cs) := by
  rw [process_video_file_eq, hw (pathStem f)]
  exact ⟨[ProviderCall.metaLookup (pathStem f)], rfl⟩

/-- When every lookup fails, no iteration stores a pathlib.Path (the only
entries ever added are offline ones, which are serializable), so every
per-file save succeeds and no iteration raises. -/
theorem process_one_allfail {w : Providers} (hw : lookupAllFail w) {ni : Bool} {st : LoopState}
    (f : String) (hser : serializableMap st.videos_map) :
    ∃ st1 cs, process_one w ni st f = ((st1, none), cs) ∧ serializableMap st1.videos_map := by
  rcases hf : mapFind st.videos_map (pathStem f) with _ | e
  · cases ni
    · rcases process_video_file_allfail hw f with ⟨cs, hp⟩
      refine ⟨(post_save false st (pathStem f)).1, cs, ?_, ?_⟩
      · rw [process_one_new_online_none w st f hf hp, post_save_pair_of_serializable hser]
      · rw [post_save_videos_map]
        exact hser
    · have hp := process_one_new_offline w st f hf
      have hser2 : serializableMap ({ st with
          videos_map := mapInsert st.videos_map (pathStem f) (process_video_file_offline w f).1.1,
          processed_count := st.processed_count + 1 } : LoopState).videos_map :=
        serializableMap_insert hser (process_video_file_offline_serializable w f)
      rw [post_save_pair_of_serializable hser2] at hp
      exact ⟨_, _, hp, by rw [post_save_videos_map]; exact hser2⟩
  · cases hn : (needs_update e ni).1
    · refine ⟨(post_save ni st (pathStem f)).1, [], ?_, ?_⟩
      · rw [process_one_skip w ni st f hf hn, post_save_pair_of_serializable hser]
      · rw [post_save_videos_map]
        exact hser
    · rcases update_video_entry_allfail hw e with ⟨cs, hu⟩
      have hp := process_one_update w ni st f hf hn hu
      dsimp only at hp
      have hser2 : serializableMap ({ st with
          videos_map := mapInsert st.videos_map (pathStem f) e,
          extra := st.extra,
          updated_count := st.updated_count + 1 } : LoopState).videos_map :=
        serializableMap_insert hser (hser (pathStem f, e) (mapFind_mem hf))
      rw [post_save_pair_of_serializable hser2] at hp
      exact ⟨_, _, hp, by rw [post_save_videos_map]; exact hser2⟩

/-! ### The loop and the finally-guarded save -/

theorem loop_files_nil (w : Providers) (ni : Bool) (st : LoopState) :
    loop_files w ni [] st = ((st, none), []) := rfl

theorem loop_files_cons_ok (w : Providers) (ni : Bool) (st st1 : LoopState)
    (f : String) (rest : List String) {cs : List ProviderCall}
    (h : process_one w ni st f = ((st1, none), cs)) :
    loop_files w ni (f :: rest) st
      = (((loop_files w ni rest st1).1.1, (loop_files w ni rest st1).1.2),
         cs ++ (loop_files w ni rest st1).2) := by
  simp only [loop_files]
  rw [h]

theorem loop_files_cons_err (w : Providers) (ni : Bool) (st st1 : LoopState)
    (f : String) (rest : List String) {err : String} {cs : List ProviderCall}
    (h : process_one w ni st f = ((st1, some err), cs)) :
    loop_files w ni (f :: rest) st = ((st1, some err), cs) := by
  simp only [loop_files]
  rw [h]

/-- Any property preserved by every iteration outcome is preserved by the
loop. -/
theorem loop_files_invariant {w : Providers} {ni : Bool} (P : LoopState → Prop)
    (hstep : ∀ st st1 err cs f, P st → process_one w ni st f = ((st1, err), cs) → P st1) :
    ∀ files st, P st → P (loop_files w ni files st).1.1 := by
  intro files
  induction files with
  | nil =>
    intro st h
    exact h
  | cons f rest ih =>
    intro st h
    rcases hp : process_one w ni st f with ⟨⟨st1, err⟩, cs⟩
    have h1 : P st1 := hstep st st1 err cs f h hp
    rcases err with _ | e
    · rw [loop_files_cons_ok w ni st st1 f rest hp]
      exact ih st1 h1
    · rw [loop_files_cons_err w ni st st1 f rest hp]
      exact h1

/-- When every lookup fails the whole loop completes without an exception and
the map stays serializable. -/
theorem loop_files_allfail {w : Providers} (hw : lookupAllFail w) (ni : Bool) :
    ∀ files (st : LoopState), serializableMap st.videos_map →
      (loop_files w ni files st).1.2 = none ∧
        serializableMap (loop_files w ni files st).1.1.videos_map := by
  intro files
  induction files with
  | nil =>
    intro st h
    exact ⟨rfl, h⟩
  | cons f rest ih =>
    intro st h
    rcases process_one_allfail hw f h with ⟨st1, cs, hp, h1⟩
    rw [loop_files_cons_ok w ni st st1 f rest hp]
    exact ih st1 h1

/-- The finally-save succeeds when the loop left a serializable map: the final
state carries the freshly written documents and the loop exception (if any)
propagates unchanged. -/
theorem run_files_ok {w : Providers} {ni : Bool} {files : List String} {st0 : LoopState}
    (hser : serializableMap (loop_files w ni files st0).1.1.videos_map) :
    run_files w ni files st0
      = (({ (loop_files w ni files st0).1.1 with
            disk := { videos_doc := some (mapValues (loop_files w ni files st0).1.1.videos_map),
                      extra_doc := (loop_files w ni files st0).1.1.extra } },
          (loop_files w ni files st0).1.2),
         (loop_files w ni files st0).2) := by
  unfold run_files
  dsimp only
  rw [save_json_files_ok (loop_files w ni files st0).1.1.extra
    (loop_files w ni files st0).1.1.disk (serializableMap_all hser)]

/-- The finally-save never changes the in-memory map. -/
theorem run_files_videos_map (w : Providers) (ni : Bool) (files : List String)
    (st0 : LoopState) :
    (run_files w ni files st0).1.1.videos_map
      = (loop_files w ni files st0).1.1.videos_map := by
  unfold run_files
  dsimp only
  cases hsv : save_json_files (loop_files w ni files st0).1.1.videos_map
      (loop_files w ni files st0).1.1.extra (loop_files w ni files st0).1.1.disk with
  | mk r d2 =>
    cases r with
    | error e => rfl
    | ok u => rfl

/-- Whenever the run leaves a well-formed videos.json behind, its contents are
exactly the values of the final in-memory map. -/
theorem run_files_disk_doc (w : Providers) (ni : Bool) (files : List String)
    (st0 : LoopState) :
    ∀ l, (run_files w ni files st0).1.1.disk.videos_doc = some l →
      l = mapValues (run_files w ni files st0).1.1.videos_map := by
  intro l hl
  rw [run_files_videos_map]
  cases hall : (mapValues (loop_files w ni files st0).1.1.videos_map).all
      VideoEntry.jsonSerializable
  · unfold run_files at hl
    dsimp only at hl
    rw [save_json_files_err (loop_files w ni files st0).1.1.extra
      (loop_files w ni files st0).1.1.disk hall] at hl
    simp at hl
  · unfold run_files at hl
    dsimp only at hl
    rw [save_json_files_ok (loop_files w ni files st0).1.1.extra
      (loop_files w ni files st0).1.1.disk hall] at hl
    simp at hl
    exact hl.symm

end UpdateSongData

namespace UpdateSongData

/-! ### From main to the loop -/

/-- The loop state main builds before entering the loop: the catalog map keyed
by filename, the loaded extra metadata, and the on-disk documents as loaded. -/
def initState (videos_list : List VideoEntry)
    (extra0 : List (String × MetadataRecord)) : LoopState :=
  { videos_map := build_videos_map videos_list, extra := extra0,
    disk := { videos_doc := some videos_list, extra_doc := extra0 } }

theorem main_eq_ran (w : Providers) (ni hi : Bool) (videos_list : List VideoEntry)
    (extra0 : List (String × MetadataRecord)) (files : List String)
    (h1 : (!ni && !hi) = false) (h2 : files.isEmpty = false)
    (h3 : ¬ (build_videos_map videos_list).length < videos_list.length) :
    main w ni hi videos_list extra0 files
      = .ran (run_files w ni files (initState videos_list extra0)).1.1
             (run_files w ni files (initState videos_list extra0)).1.2
             (run_files w ni files (initState videos_list extra0)).2 := by
  unfold main initState
  rw [h1, h2]
  simp [h3]

theorem mapKeys_build_of_nodup {l : List VideoEntry}
    (h : (l.map VideoEntry.filename).Nodup) :
    mapKeys (build_videos_map l) = l.map VideoEntry.filename := by
  rw [build_eq_of_nodup h]
  unfold mapKeys
  rw [List.map_map]
  rfl

/-- Over a fully-resolved serializable catalog that already covers every
on-disk file, the online loop changes neither the map nor the extra metadata,
raises nothing and performs no external call: every iteration is a skip
followed by a successful save. -/
theorem loop_files_resolved (w : Providers) (files : List String) :
    ∀ st : LoopState,
      (∀ p ∈ st.videos_map, pyTruthy p.2.artist = true ∧ pyTruthy p.2.title = true) →
      (∀ f ∈ files, (mapFind st.videos_map (pathStem f)).isSome = true) →
      serializableMap st.videos_map →
      (loop_files w false files st).1.1.videos_map = st.videos_map ∧
        (loop_files w false files st).1.1.extra = st.extra ∧
        (loop_files w false files st).1.2 = none ∧
        (loop_files w false files st).2 = [] := by
  induction files with
  | nil =>
    intro st h1 h2 hser
    exact ⟨rfl, rfl, rfl, rfl⟩
  | cons f rest ih =>
    intro st h1 h2 hser
    rcases Option.isSome_iff_exists.mp (h2 f (by simp)) with ⟨e, hf⟩
    have he := h1 (pathStem f, e) (mapFind_mem hf)
    have hn : (needs_update e false).1 = false := by
      rw [needs_update_online]
      simp [he.1, he.2]
    have hp : process_one w false st f = (((post_save false st (pathStem f)).1, none), []) := by
      rw [process_one_skip w false st f hf hn, post_save_pair_of_serializable hser]
    rw [loop_files_cons_ok w false st (post_save false st (pathStem f)).1 f rest hp]
    dsimp only
    have hm := post_save_videos_map false st (pathStem f)
    have hx := post_save_extra false st (pathStem f)
    have ihres := ih (post_save false st (pathStem f)).1
      (by rw [hm]; exact h1)
      (by rw [hm]; intro g hg; exact h2 g (List.mem_cons_of_mem f hg))
      (by rw [hm]; exact hser)
    refine ⟨?_, ?_, ?_, ?_⟩
    · rw [ihres.1, hm]
    · rw [ihres.2.1, hx]
    · exact ihres.2.2.1
    · simp [ihres.2.2.2]

end UpdateSongData

namespace UpdateSongData

/-! ### Concrete fixtures used for evaluation -/

/-- A provider record with all three read keys present. -/
def sampleRecord : MetadataRecord :=
  { artist := some "A", name := some "T", genres := some ["pop"] }

/-- Providers whose metadata lookup always fails; the probe reports five
seconds. -/
def wFail : Providers :=
  { spotdl_meta := fun _ => .fail, cover_cmd := fun _ => .ok (),
    ffprobe := fun _ => some 5, now := "2024-01-01T00:00:00Z" }

/-- Providers whose metadata lookup returns two records for every query. -/
def wTwo : Providers :=
  { spotdl_meta := fun _ => .ok [sampleRecord, sampleRecord], cover_cmd := fun _ => .ok (),
    ffprobe := fun _ => some 5, now := "2024-01-01T00:00:00Z" }

/-- Providers whose metadata lookup returns one record lacking the genres
key. -/
def wNoGenres : Providers :=
  { spotdl_meta := fun _ => .ok [{ name := some "T" }], cover_cmd := fun _ => .ok (),
    ffprobe := fun _ => some 5, now := "2024-01-01T00:00:00Z" }

/-- Providers whose duration probe reports exactly zero seconds. -/
def wZero : Providers :=
  { spotdl_meta := fun _ => .fail, cover_cmd := fun _ => .ok (),
    ffprobe := fun _ => some 0, now := "2024-01-01T00:00:00Z" }

/-- Providers whose metadata lookup returns one complete record and whose
probe reports five seconds: the happy path of processing a new file. -/
def wGood : Providers :=
  { spotdl_meta := fun _ => .ok [sampleRecord], cover_cmd := fun _ => .ok (),
    ffprobe := fun _ => some 5, now := "2024-01-01T00:00:00Z" }

/-- A fully resolved catalog entry fixture. -/
def resolvedEntry : VideoEntry :=
  { filename := "song", artist := some "A", title := some "T" }

end UpdateSongData

namespace UpdateSongData

/-! ### Claims -/

/-- C1: the claim says every processed file is durably committed before the
next one, so that a run interrupted after file k of n leaves files 1..k
persisted and loses no previously committed entry.  The code disagrees on a
reachable path: processing a brand-new file online stores the pathlib.Path
returned by download_cover in cover_filename, and the very first per-file
save then raises TypeError from json.dump after videos.json was already
opened for writing and truncated.  The finally-save raises the same way.
Concretely, over a catalog holding one committed entry and one new on-disk
file whose lookup succeeds, the run aborts with the TypeError and leaves
videos.json truncated: the previously committed entry is destroyed rather
than preserved, even though the in-memory catalog still holds both keys. -/
theorem C1_persist_failure_eval :
    (main wGood false true [resolvedEntry] [] ["new.mp4"]).runError
      = some "TypeError: PosixPath is not JSON serializable"
    ∧ (main wGood false true [resolvedEntry] [] ["new.mp4"]).catalogKeys = ["song", "new"]
    ∧ ((main wGood false true [resolvedEntry] [] ["new.mp4"]).persisted).map Disk.videos_doc
      = some none :=
  ⟨rfl, rfl, rfl⟩

/-- C2: over an unchanged file set whose base names are all cataloged and a
serializable catalog in which every entry has artist and title set (and, in
the sense of the specification and the sibling script, a cover present on
disk), an online run performs zero provider calls, raises nothing, and
persists documents identical to its input, so a second run in succession is
the very same computation: it also performs zero provider calls and produces
byte-for-byte identical persisted output (persisted documents are values
here, and JSON serialization of equal values is byte-identical).  Entries
loaded from videos.json are always serializable, since a JSON document cannot
hold the pathlib.Path value that breaks serialization. -/
theorem C2_second_run_idempotent (w : Providers) (covers_fs : List String)
    (videos_list : List VideoEntry) (extra0 : List (String × MetadataRecord))
    (files : List String)
    (hresolved : ∀ e ∈ videos_list, pyTruthy e.artist = true ∧ pyTruthy e.title = true
        ∧ (DownloadSongData.get_existing_cover covers_fs e.filename).isSome = true)
    (hcovered : ∀ f ∈ files, pathStem f ∈ videos_list.map VideoEntry.filename)
    (hnodup : (videos_list.map VideoEntry.filename).Nodup)
    (hser : ∀ e ∈ videos_list, e.jsonSerializable = true)
    (hne : files ≠ []) :
    (main w false true videos_list extra0 files).runError = none
    ∧ (main w false true videos_list extra0 files).runCalls = []
    ∧ (main w false true videos_list extra0 files).persisted
        = some { videos_doc := some videos_list, extra_doc := extra0 }
    ∧ rerunFromDisk w files { videos_doc := some videos_list, extra_doc := extra0 }
        = some (main w false true videos_list extra0 files)
    ∧ (rerunFromDisk w files { videos_doc := some videos_list, extra_doc := extra0 }).map
        MainOutcome.runCalls = some [] := by
  have h2 : files.isEmpty = false := by
    cases files
    · exact absurd rfl hne
    · rfl
  have h3 : ¬ (build_videos_map videos_list).length < videos_list.length := by
    rw [build_length_of_nodup hnodup]
    exact Nat.lt_irrefl _
  have hmain := main_eq_ran w false true videos_list extra0 files rfl h2 h3
  have hres : ∀ p ∈ build_videos_map videos_list,
      pyTruthy p.2.artist = true ∧ pyTruthy p.2.title = true := by
    intro p hp
    exact ⟨(hresolved p.2 (build_snd_mem hp)).1, (hresolved p.2 (build_snd_mem hp)).2.1⟩
  have hkeys : ∀ f ∈ files,
      (mapFind (build_videos_map videos_list) (pathStem f)).isSome = true := by
    intro f hf
    have hm : pathStem f ∈ mapKeys (build_videos_map videos_list) := by
      rw [mapKeys_build_of_nodup hnodup]
      exact hcovered f hf
    rcases mapFind_isSome_of_mem_keys hm with ⟨v, hv⟩
    rw [hv]
    rfl
  have hser0 : serializableMap (build_videos_map videos_list) := by
    intro p hp
    exact hser p.2 (build_snd_mem hp)
  have hloop := loop_files_resolved w files (initState videos_list extra0) hres hkeys hser0
  have hserL : serializableMap
      (loop_files w false files (initState videos_list extra0)).1.1.videos_map := by
    rw [hloop.1]
    exact hser0
  have hrun := run_files_ok hserL
  have hcalls : (main w false true videos_list extra0 files).runCalls = [] := by
    rw [hmain, hrun]
    exact hloop.2.2.2
  have hv : mapValues
      (loop_files w false files (initState videos_list extra0)).1.1.videos_map
      = videos_list := by
    rw [hloop.1]
    exact mapValues_build_of_nodup hnodup
  have hx : (loop_files w false files (initState videos_list extra0)).1.1.extra
      = extra0 := hloop.2.1
  refine ⟨?_, hcalls, ?_, rfl, ?_⟩
  · rw [hmain, hrun]
    exact hloop.2.2.1
  · rw [hmain, hrun]
    dsimp only [MainOutcome.persisted]
    rw [hv, hx]
  · show some (main w false true videos_list extra0 files).runCalls = some []
    rw [hcalls]

theorem C2_second_run_idempotent_witness :
    (main wFail false true [resolvedEntry] [] ["song.mp4"]).runCalls = []
    ∧ (main wFail false true [resolvedEntry] [] ["song.mp4"]).persisted
        = some { videos_doc := some [resolvedEntry], extra_doc := [] } :=
  ⟨(C2_second_run_idempotent wFail ["song.jpg"] [resolvedEntry] [] ["song.mp4"]
      (by decide) (by decide) (by decide) (by decide) (by decide)).2.1,
   (C2_second_run_idempotent wFail ["song.jpg"] [resolvedEntry] [] ["song.mp4"]
      (by decide) (by decide) (by decide) (by decide) (by decide)).2.2.1⟩

/-- C3: the claim says an entry with artist and title set but no cover file on
disk for any supported extension is classified STALE and gets a cover fetch.
The code disagrees: get_existing_cover builds the covers path without any
filesystem check, so needs_update sees a cover as always present and returns
up to date with no reasons, for every possible state of the covers directory
(the covers directory does not even appear among its inputs).  The sibling
script implements the existence check the claim (and the comments of this
script) describe, and reports no cover for the same state. -/
theorem C3_cover_check_eval :
    needs_update { filename := "song1", artist := some "A", title := some "T" } false
      = (false, [])
    ∧ DownloadSongData.get_existing_cover [] "song1" = none := by
  constructor
  · rfl
  · rfl

/-- C4: the claim says two on-disk files with colliding base names abort the
run before any persisted state changes.  The code only checks the loaded
catalog for duplicate keys; with an empty catalog and the files song.mp4 and
song.avi the run completes without error, the second file is silently treated
as an update of the entry created from the first, exactly one entry named
song is produced, and state is persisted. -/
theorem C4_collision_merge_eval :
    (main wFail true true [] [] ["song.mp4", "song.avi"]).runError = none
    ∧ (main wFail true true [] [] ["song.mp4", "song.avi"]).catalogKeys = ["song"]
    ∧ (main wFail true true [] [] ["song.mp4", "song.avi"]).persisted.isSome = true := by
  refine ⟨rfl, rfl, rfl⟩

/-- C5 counterexample: an offline run over a catalog whose single entry lacks
duration_seconds, with its file on disk and a probe that would report five
seconds, makes zero provider calls (in particular no probe) and persists the
entry unchanged, with duration_seconds still absent.  The claim says the probe
is always attempted for an entry with a missing duration and that offline mode
still backfills it. -/
theorem C5_counterexample :
    (main wFail true true [{ filename := "song" }] [] ["song.mp4"]).runCalls = []
    ∧ (main wFail true true [{ filename := "song" }] [] ["song.mp4"]).persisted
        = some { videos_doc := some [{ filename := "song" }], extra_doc := [] } := by
  refine ⟨rfl, rfl⟩

/-- C5 as amended: an entry already present in the catalog is never probed for
duration and its duration_seconds field is never changed: an iteration over a
cataloged file emits no probe call and preserves the stored duration whatever
its outcome, and in offline mode the iteration does nothing but attempt the
rewrite of the two JSON files.  The duration probe runs only when a new file
is processed. -/
theorem C5_no_duration_backfill (w : Providers) (ni : Bool) (st : LoopState) (f : String)
    (e : VideoEntry) (hf : mapFind st.videos_map (pathStem f) = some e) :
    (∀ p, ProviderCall.probe p ∉ (process_one w ni st f).2)
    ∧ (∀ st1 err cs, process_one w ni st f = ((st1, err), cs) →
        (mapFind st1.videos_map (pathStem f)).map VideoEntry.duration_seconds
          = some e.duration_seconds)
    ∧ (ni = true →
        process_one w ni st f
          = ((match save_json_files st.videos_map st.extra st.disk with
              | (.ok _, disk2) => ({ st with disk := disk2 }, none)
              | (.error e2, disk2) => ({ st with disk := disk2 }, some e2)), [])) := by
  refine ⟨?_, ?_, ?_⟩
  · intro p
    cases hn : (needs_update e ni).1
    · rw [process_one_skip w ni st f hf hn]
      simp
    · rcases hu : update_video_entry w e with ⟨r, cs2⟩
      have hcs2 : cs2 = if !pyTruthy e.artist && !pyTruthy e.title
          then [ProviderCall.metaLookup e.filename] else [] := by
        rw [← update_video_entry_calls w e, hu]
      rcases r with err | ⟨ue, nx⟩
      · rw [process_one_update_err w ni st f hf hn hu]
        dsimp only
        rw [hcs2]
        cases hc : !pyTruthy e.artist && !pyTruthy e.title <;> simp
      · rw [process_one_update w ni st f hf hn hu]
        dsimp only
        rw [hcs2]
        cases hc : !pyTruthy e.artist && !pyTruthy e.title <;> simp
  · intro st1 err cs h
    cases hn : (needs_update e ni).1
    · rw [process_one_skip w ni st f hf hn] at h
      simp only [Prod.mk.injEq] at h
      rw [← fst_of_pair_eq h.1, post_save_videos_map, hf]
      rfl
    · rcases hu : update_video_entry w e with ⟨r, cs2⟩
      rcases r with err2 | ⟨ue, nx⟩
      · rw [process_one_update_err w ni st f hf hn hu] at h
        simp only [Prod.mk.injEq] at h
        rw [← h.1.1, hf]
        rfl
      · rw [process_one_update w ni st f hf hn hu] at h
        simp only [Prod.mk.injEq] at h
        have hue := update_video_entry_fields w e ue nx (by rw [hu])
        rw [← fst_of_pair_eq h.1, post_save_videos_map]
        dsimp only
        rw [mapFind_insert_self]
        simp [hue.2]
  · intro hni
    subst hni
    rw [process_one_skip w true st f hf (by rw [needs_update_offline]), post_save_true_eq]

theorem C5_no_duration_backfill_witness :
    process_one wFail true (initState [{ filename := "song" }] []) "song.mp4"
      = ((match save_json_files (initState [{ filename := "song" }] []).videos_map
            (initState [{ filename := "song" }] []).extra
            (initState [{ filename := "song" }] []).disk with
          | (.ok _, disk2) => ({ initState [{ filename := "song" }] [] with disk := disk2 }, none)
          | (.error e2, disk2) =>
            ({ initState [{ filename := "song" }] [] with disk := disk2 }, some e2)), []) :=
  (C5_no_duration_backfill wFail true (initState [{ filename := "song" }] []) "song.mp4"
    { filename := "song" } rfl).2.2 rfl

end UpdateSongData

namespace UpdateSongData

/-- C6: when updating an existing entry, the metadata lookup happens if and
only if both artist and title are absent (Python-falsy: the key missing or the
empty string).  With artist or title present the update performs no external
call at all and returns the entry unchanged, so an entry with artist present
but title absent is never re-queried. -/
theorem C6_lookup_iff_both_absent (w : Providers) (e : VideoEntry) :
    ((update_video_entry w e).2 = [ProviderCall.metaLookup e.filename]
        ↔ pyTruthy e.artist = false ∧ pyTruthy e.title = false)
    ∧ (pyTruthy e.artist = true ∨ pyTruthy e.title = true →
        update_video_entry w e = (.ok (e, none), [])) := by
  constructor
  · rw [update_video_entry_calls]
    cases ha : pyTruthy e.artist <;> cases ht : pyTruthy e.title <;> simp
  · intro h
    apply update_video_entry_skip
    rcases h with h | h <;> simp [h]

theorem C6_lookup_iff_both_absent_witness :
    update_video_entry wFail { filename := "x", artist := some "A" }
      = (.ok ({ filename := "x", artist := some "A" }, none), [])
    ∧ (update_video_entry wFail { filename := "y" }).2 = [ProviderCall.metaLookup "y"] :=
  ⟨(C6_lookup_iff_both_absent wFail { filename := "x", artist := some "A" }).2 (Or.inl rfl),
   (C6_lookup_iff_both_absent wFail { filename := "y" }).1.mpr ⟨rfl, rfl⟩⟩

/-- C7 counterexample: with a provider returning two records for the query,
get_spotdl_metadata returns None, the same value as a failed lookup: nothing
is escalated to the caller, which cannot distinguish this from not found. -/
theorem C7_counterexample :
    get_spotdl_metadata wTwo "song1" = (none, [ProviderCall.metaLookup "song1"]) := rfl

/-- C7 as amended: a record list of length other than one does raise a
ValueError inside the try block of the adapter, but the blanket exception
handler of the very same function catches it, logs a warning and returns None,
so the caller receives an ordinary not-found result and processing continues
as if the lookup had found nothing. -/
theorem C7_multiple_records_not_found (l : List MetadataRecord) (h : l.length ≠ 1) :
    get_spotdl_metadata_body (.ok l) = .error "unexpected length of metadata"
    ∧ ∀ (w : Providers) (q : String), w.spotdl_meta q = .ok l →
        get_spotdl_metadata w q = (none, [ProviderCall.metaLookup q]) := by
  have hb : get_spotdl_metadata_body (.ok l) = .error "unexpected length of metadata" := by
    rcases l with _ | ⟨a, t⟩
    · rfl
    · rcases t with _ | ⟨b, t2⟩
      · simp at h
      · rfl
  refine ⟨hb, fun w q hq => ?_⟩
  unfold get_spotdl_metadata get_spotdl_metadata_result
  rw [hq, hb]

theorem C7_multiple_records_not_found_witness :
    get_spotdl_metadata_body (.ok [sampleRecord, sampleRecord])
      = .error "unexpected length of metadata"
    ∧ get_spotdl_metadata wTwo "song2" = (none, [ProviderCall.metaLookup "song2"]) :=
  ⟨(C7_multiple_records_not_found [sampleRecord, sampleRecord] (by decide)).1,
   (C7_multiple_records_not_found [sampleRecord, sampleRecord] (by decide)).2 wTwo "song2" rfl⟩

/-- C8 counterexample: a provider record lacking the genres key makes
extract_song_info raise a KeyError which nothing catches: the run aborts with
the error after the finally save, and the second file is never processed (the
catalog still holds only the first key).  The claim says a malformed provider
record is logged and processing continues with subsequent files. -/
theorem C8_counterexample :
    (main wNoGenres false true [{ filename := "a" }] [] ["a.mp4", "b.mp4"]).runError
      = some "KeyError: genres"
    ∧ (main wNoGenres false true [{ filename := "a" }] [] ["a.mp4", "b.mp4"]).catalogKeys
      = ["a"] := by
  refine ⟨rfl, rfl⟩

/-- C8 as amended: failures inside the metadata lookup itself (provider error,
timeout, zero or multiple records, empty record) are recoverable: over a
serializable loaded catalog, when every lookup comes back empty no iteration
raises and the run completes with no uncaught error, files after a failed one
included.  The uncaught aborts are elsewhere: a looked-up record without the
genres key raises KeyError, and a successfully processed new file stores a
pathlib.Path that makes the save raise TypeError (the cover subprocess would
also propagate errors, but it is unreachable because the cover-existence
check always reports a cover present). -/
theorem C8_lookup_failures_recoverable (w : Providers) (ni hi : Bool)
    (vl : List VideoEntry) (e0 : List (String × MetadataRecord)) (files : List String)
    (hw : lookupAllFail w) (hser : ∀ e ∈ vl, e.jsonSerializable = true) :
    (main w ni hi vl e0 files).runError = none := by
  unfold main
  split
  · rfl
  · split
    · rfl
    · dsimp only
      split
      · rfl
      · dsimp only [MainOutcome.runError]
        have hser0 : serializableMap (build_videos_map vl) := by
          intro p hp
          exact hser p.2 (build_snd_mem hp)
        have hloop := loop_files_allfail hw ni files
          { videos_map := build_videos_map vl, extra := e0,
            disk := { videos_doc := some vl, extra_doc := e0 } } hser0
        rw [run_files_ok hloop.2]
        exact hloop.1

theorem C8_lookup_failures_recoverable_witness :
    (main wFail false true [{ filename := "a" }] [] ["a.mp4", "b.mp4"]).runError = none :=
  C8_lookup_failures_recoverable wFail false true [{ filename := "a" }] [] ["a.mp4", "b.mp4"]
    (fun q => rfl) (by decide)

/-- C9: whenever the duration probe fails or returns zero for a file, the
entry built for it (online or offline) omits duration_seconds entirely: the
source writes the field only when the probed value is truthy, so a zero
duration is indistinguishable from an unprobed one. -/
theorem C9_zero_duration_omitted (w : Providers) (f : String)
    (hp : w.ffprobe (VIDEOS_DIR ++ "/" ++ f) = none
        ∨ w.ffprobe (VIDEOS_DIR ++ "/" ++ f) = some 0) :
    (process_video_file_offline w f).1.1.duration_seconds = none
    ∧ (∀ e md bn cs, process_video_file w f = (.ok (some (e, md, bn)), cs) →
        e.duration_seconds = none) :=
  ⟨process_video_file_offline_duration_omitted w f hp,
   process_video_file_duration_omitted w f hp⟩

theorem C9_zero_duration_omitted_witness :
    (process_video_file_offline wZero "song.mp4").1.1.duration_seconds = none :=
  (C9_zero_duration_omitted wZero "song.mp4" (Or.inr rfl)).1

/-- C10 counterexample: the claim extends the key invariant to the persisted
catalog, but a run that processes a new file online leaves videos.json
truncated (json.dump raises TypeError on the stored pathlib.Path midway
through a file opened for writing), so the persisted document is not a
catalog at all while the in-memory map does hold the new key. -/
theorem C10_counterexample :
    ((main wGood false true [] [] ["a.mp4"]).persisted).map Disk.videos_doc = some none
    ∧ (main wGood false true [] [] ["a.mp4"]).catalogKeys = ["a"] :=
  ⟨rfl, rfl⟩

/-- The catalog key invariant, stated over the outcome of main: when the loop
ran, every pair of the in-memory map stores an entry whose filename equals its
key, the keys are pairwise distinct, and whenever the persisted videos.json is
a well-formed document, it is exactly the values of that map and its filenames
are pairwise distinct, so it holds at most one entry per base name. -/
def outcomeInv : MainOutcome → Prop
  | .ran st _ _ =>
    (∀ p ∈ st.videos_map, p.2.filename = p.1)
      ∧ (mapKeys st.videos_map).Nodup
      ∧ (∀ l, st.disk.videos_doc = some l →
          l = mapValues st.videos_map ∧ (l.map VideoEntry.filename).Nodup)
  | _ => True

/-- C10 as amended: every run of main preserves the catalog-map key invariant
in memory: each key maps to an entry carrying that key as its filename and
the keys are pairwise distinct; and whenever the run leaves a well-formed
videos.json behind, that document equals the values of the final map and
holds at most one entry per base name.  The persisted half is conditional
because an aborted save leaves videos.json truncated rather than well-formed
(the original unconditional claim is refuted by the counterexample). -/
theorem C10_catalog_key_invariant (w : Providers) (ni hi : Bool)
    (vl : List VideoEntry) (e0 : List (String × MetadataRecord)) (files : List String) :
    outcomeInv (main w ni hi vl e0 files) := by
  unfold main
  split
  · trivial
  · split
    · trivial
    · dsimp only
      split
      · trivial
      · have hinv : mapInv ((run_files w ni files
            { videos_map := build_videos_map vl, extra := e0,
              disk := { videos_doc := some vl, extra_doc := e0 } }).1.1).videos_map := by
          rw [run_files_videos_map]
          exact loop_files_invariant (fun st => mapInv st.videos_map)
            (fun _ _ _ _ _ hP hp => process_one_mapInv hP hp) files _ (build_videos_map_inv vl)
        refine ⟨hinv.1, hinv.2, ?_⟩
        intro l hl
        have hleq := run_files_disk_doc w ni files
          { videos_map := build_videos_map vl, extra := e0,
            disk := { videos_doc := some vl, extra_doc := e0 } } l hl
        refine ⟨hleq, ?_⟩
        rw [hleq, values_map_filename hinv.1]
        exact hinv.2

end UpdateSongData
